import Mathlib

/-!
# Structured logger and request-logging middleware

A shallow embedding of `http-rpc/server/util/logger.go` and
`http-rpc/server/main.go`, followed by the properties of the specification
that concern them.

Conventions of the embedding.

* A Go `map[string]T` is an `AList`: a list of key/value entries without
  duplicate keys. The order of the entries stands for the order in which a
  `range` loop visits them, so a statement quantified over all maps covers
  every iteration order.
* Go `string` is `String`; `[]byte` is `List UInt8`; `[]byte(s)` is the UTF-8
  encoding of `s`.
* Calls that leave the repository (the Go runtime, `path/filepath`,
  `encoding/json`, `time`, `fmt`'s `%v`, the clock) are read from an explicit
  environment record; the level filter of the `zerolog` dependency is written
  out as the library documents it.
* A function that prints, exits or panics returns the list of its outputs and
  the way it ended.
-/

/-! ## The part of `zerolog` the logger relies on -/

namespace zerolog

/-- The type `zerolog.Level` (an `int8`): severities are ordered by their
numeric value. -/
abbrev Level := Int

def DebugLevel : Level := 0
def InfoLevel : Level := 1
def WarnLevel : Level := 2
def ErrorLevel : Level := 3
def FatalLevel : Level := 4
def PanicLevel : Level := 5
def NoLevel : Level := 6
def Disabled : Level := 7
def TraceLevel : Level := -1

/-- A `zerolog.Logger` as far as filtering is concerned: its minimum level.
The writer is fixed at construction and is the console writer below. -/
structure Logger where
  level : Level

/-- The constructor `zerolog.New(w)`: a root logger accepts every level. -/
def New : Logger := ⟨TraceLevel⟩

/-- The method `Logger.Level(lvl)`: a child logger with the minimum level `lvl`. -/
def Logger.Level (l : Logger) (lvl : Level) : Logger := { l with level := lvl }

/-- The check `Logger.should(lvl)`: an event is dropped when its level is below
the logger's level or below the package-wide level `gLevel`. -/
def Logger.should (l : Logger) (gLevel : zerolog.Level) (lvl : zerolog.Level) : Bool :=
  !(decide (lvl < l.level) || decide (lvl < gLevel))

/-- The method `Logger.WithLevel(level)`: `true` when a live event is returned,
`false` when the result is the nil event, on which `Str`, `Interface` and `Msg`
do nothing. -/
def Logger.WithLevel (l : Logger) (gLevel : zerolog.Level) (level : zerolog.Level) : Bool :=
  if level = Disabled then false else l.should gLevel level

end zerolog

/-! ## `util/logger.go` -/

namespace util

def Reset : String := "\x1b[0m"
def Red : String := "\x1b[31m"
def Green : String := "\x1b[32m"
def Yellow : String := "\x1b[33m"
def Blue : String := "\x1b[34m"
def Purple : String := "\x1b[35m"
def Cyan : String := "\x1b[36m"
def Gray : String := "\x1b[37m"
def White : String := "\x1b[97m"

/-- A dynamic Go value, the content of an `interface{}`. -/
inductive Value where
  | nil
  | bool (b : Bool)
  | int (i : Int)
  | float (bits : Nat)
  | str (s : String)
  | list (xs : List Value)
  | map (kvs : List (String × Value))

/-- The Go type `map[string]interface{}`. -/
abbrev FieldMap := AList (fun _ : String => Value)

/-- The assignment `m[k] = v`. -/
def FieldMap.assign (m : FieldMap) (k : String) (v : Value) : FieldMap :=
  AList.insert k v m

/-- A map literal: the listed keys are assigned in turn to an empty map. -/
def FieldMap.ofList (kvs : List (String × Value)) : FieldMap :=
  kvs.foldl (fun m kv => m.assign kv.1 kv.2) (∅ : FieldMap)

/-- The function `flatten`: one map that receives every entry of every mapping,
the mappings taken in order. -/
def flatten (fields : List FieldMap) : FieldMap :=
  fields.foldl
    (fun merged field => field.entries.foldl (fun m e => m.assign e.1 e.2) merged)
    (∅ : FieldMap)

/-- What the logger reads from outside the package during one call. -/
structure Runtime where
  /-- The result of `runtime.Caller(4)`: file and line, or `none` when not ok. -/
  Caller : Option (String × Int)
  /-- The function `filepath.Rel(basepath, targpath)`. -/
  Rel : String → String → Except String String
  /-- The text of `debug.Stack()`. -/
  Stack : String
  /-- The timestamp zerolog attaches to an event. -/
  Now : String
  /-- The package-wide level of zerolog, `zerolog.GlobalLevel()`. -/
  GlobalLevel : zerolog.Level

/-- The struct `Logger`. -/
structure Logger where
  logger : zerolog.Logger
  cwd : String

/-- One structured record handed to the output sink. -/
structure LogEvent where
  level : zerolog.Level
  caller : String
  fields : FieldMap
  time : String
  message : String

/-- One thing a call makes visible. -/
inductive Effect where
  /-- A serialized record written to the logger's sink, the console writer. -/
  | record (e : LogEvent)
  /-- Text printed on standard output by `fmt.Println`. -/
  | stdout (text : String)
  /-- Text printed on standard error by the standard `log` package. -/
  | stderr (text : String)

/-- How a call ended. -/
inductive Status where
  | returned
  | exited (code : Int)
  | panicked (reason : String)

/-- The outputs of a call, oldest first, and how it ended. -/
structure Run where
  out : List Effect
  status : Status

/-- Sequencing: `k` runs only when `r` returned. -/
def Run.andThen (r : Run) (k : Run) : Run :=
  match r.status with
  | .returned => ⟨r.out ++ k.out, k.status⟩
  | _ => r

/-- The text `fmt.Println` prints for string operands. -/
def Println (args : List String) : String :=
  " ".intercalate args ++ "\n"

/-- The function `New`, given the result of `os.Getwd()`. A failure is reported
with `log.Fatalln`, which ends the process. -/
def New (getwd : Except String String) : Except Run Logger :=
  match getwd with
  | .error err => .error ⟨[.stderr (Println ["Error init'ng logger", err])], .exited 1⟩
  | .ok cwd => .ok { logger := zerolog.New, cwd := cwd }

/-- The function `getCaller`. The result `.error text` stands for the call
`log.Fatalln("Error getting current dir", err)`: `text` is printed on standard
error (after the date prefix of the standard logger, left out here) and the
process exits with status 1, so nothing is returned. -/
def getCaller (rt : Runtime) (cwd : String) : Except String String :=
  match rt.Caller with
  | none => .ok ""
  | some (file, line) =>
    match rt.Rel cwd file with
    | .error err => .error (Println ["Error getting current dir", err])
    | .ok relFilePath => .ok (relFilePath ++ ":" ++ toString line)

/-- The method `Logger.logWithFields`. The argument `getCaller(l.cwd)` is
evaluated whatever `WithLevel` returned. -/
def Logger.logWithFields (l : Logger) (rt : Runtime) (level : zerolog.Level) (msg : String)
    (fields : FieldMap) : Run :=
  match getCaller rt l.cwd with
  | .error text => ⟨[.stderr text], .exited 1⟩
  | .ok caller =>
    if l.logger.WithLevel rt.GlobalLevel level then
      ⟨[.record { level := level, caller := caller, fields := fields, time := rt.Now,
                  message := msg }], .returned⟩
    else
      ⟨[], .returned⟩

def Logger.Trace (l : Logger) (rt : Runtime) (msg : String) (fields : List FieldMap) : Run :=
  let kvFields := flatten fields
  l.logWithFields rt zerolog.TraceLevel msg kvFields

def Logger.Debug (l : Logger) (rt : Runtime) (msg : String) (fields : List FieldMap) : Run :=
  let kvFields := flatten fields
  l.logWithFields rt zerolog.DebugLevel msg kvFields

def Logger.Info (l : Logger) (rt : Runtime) (msg : String) (fields : List FieldMap) : Run :=
  let kvFields := flatten fields
  l.logWithFields rt zerolog.InfoLevel msg kvFields

/-- The comparison `kvFields["stack"] == true`: it holds exactly for the
boolean `true`. -/
def stackIsTrue (kvFields : FieldMap) : Bool :=
  match kvFields.lookup "stack" with
  | some (.bool true) => true
  | _ => false

def Logger.Warn (l : Logger) (rt : Runtime) (msg : String) (fields : List FieldMap) : Run :=
  let kvFields := flatten fields
  (l.logWithFields rt zerolog.WarnLevel msg kvFields).andThen
    (if stackIsTrue kvFields then
      ⟨[.stdout (Println [Yellow, rt.Stack, Reset])], .returned⟩
    else
      ⟨[], .returned⟩)

/-- The method `Logger.Error`. The cause `err` is `none` for the nil interface,
on which `err.Error()` panics, and `some s` for an error whose text is `s`. -/
def Logger.Error (l : Logger) (rt : Runtime) (err : Option String) (msg : String)
    (fields : List FieldMap) : Run :=
  let kvFields := flatten fields
  match err with
  | none => ⟨[], .panicked "runtime error: invalid memory address or nil pointer dereference"⟩
  | some text =>
    let kvFields := kvFields.assign "error" (.str text)
    (l.logWithFields rt zerolog.ErrorLevel msg kvFields).andThen
      ⟨[.stdout (Println [Red, rt.Stack, Reset])], .returned⟩

def Logger.ErrorMsg (l : Logger) (rt : Runtime) (msg : String) (fields : List FieldMap) : Run :=
  l.logWithFields rt zerolog.ErrorLevel msg (flatten fields)

def Logger.Fatal (l : Logger) (rt : Runtime) (_err : Option String) (msg : String)
    (fields : List FieldMap) : Run :=
  let kvFields := flatten fields
  (l.logWithFields rt zerolog.FatalLevel msg kvFields).andThen ⟨[], .exited 1⟩

def Logger.Panic (l : Logger) (rt : Runtime) (_err : Option String) (msg : String)
    (fields : List FieldMap) : Run :=
  let kvFields := flatten fields
  (l.logWithFields rt zerolog.PanicLevel msg kvFields).andThen ⟨[], .panicked msg⟩

/-! The package-level functions act on `globalLogger`, passed as `g`. -/

def Trace (g : Logger) (rt : Runtime) (msg : String) (fields : List FieldMap) : Run :=
  g.Trace rt msg fields

def Debug (g : Logger) (rt : Runtime) (msg : String) (fields : List FieldMap) : Run :=
  g.Debug rt msg fields

def ErrMsg (g : Logger) (rt : Runtime) (msg : String) (fields : List FieldMap) : Run :=
  g.Error rt none msg fields

def Error (g : Logger) (rt : Runtime) (err : Option String) (msg : String)
    (fields : List FieldMap) : Run :=
  g.Error rt err msg fields

def Info (g : Logger) (rt : Runtime) (msg : String) (fields : List FieldMap) : Run :=
  g.Info rt msg fields

def Warn (g : Logger) (rt : Runtime) (msg : String) (fields : List FieldMap) : Run :=
  g.Warn rt msg fields

def Fatal (g : Logger) (rt : Runtime) (err : Option String) (msg : String)
    (fields : List FieldMap) : Run :=
  g.Fatal rt err msg fields

def Panic (g : Logger) (rt : Runtime) (err : Option String) (msg : String)
    (fields : List FieldMap) : Run :=
  g.Panic rt err msg fields

/-- The function `SetLevel`: the new value of `globalLogger`. -/
def SetLevel (level : zerolog.Level) (g : Logger) : Logger :=
  { g with logger := g.logger.Level level }

def GetLogger (g : Logger) : Logger := g

/-- The six emission operations that return to their caller, as one value, so
that a statement can range over them. -/
inductive Emission where
  | Trace
  | Debug
  | Info
  | Warn
  | Error (err : Option String)
  | ErrorMsg

/-- The level an emission operation passes to `logWithFields`. -/
def Emission.level : Emission → zerolog.Level
  | .Trace => zerolog.TraceLevel
  | .Debug => zerolog.DebugLevel
  | .Info => zerolog.InfoLevel
  | .Warn => zerolog.WarnLevel
  | .Error _ => zerolog.ErrorLevel
  | .ErrorMsg => zerolog.ErrorLevel

/-- Calling the method an `Emission` names. -/
def Logger.emit (l : Logger) (rt : Runtime) (op : Emission) (msg : String)
    (fields : List FieldMap) : Run :=
  match op with
  | .Trace => l.Trace rt msg fields
  | .Debug => l.Debug rt msg fields
  | .Info => l.Info rt msg fields
  | .Warn => l.Warn rt msg fields
  | .Error err => l.Error rt err msg fields
  | .ErrorMsg => l.ErrorMsg rt msg fields

/-! ### The console writer -/

/-- The Go type `[]byte`. -/
abbrev Bytes := List UInt8

/-- The conversion `[]byte(s)`. -/
def toBytes (s : String) : Bytes := s.toUTF8.data.toList

/-- What `CustomConsoleWriter.Write` calls outside the package. -/
structure Lib where
  /-- The call `json.Unmarshal(p, &event)` with `event` a `map[string]interface{}`:
  the decoded record, or the error. -/
  Unmarshal : Bytes → Except String FieldMap
  /-- The call `os.Getpid()`. -/
  Getpid : Int
  /-- The call `time.Parse(time.RFC3339, ts)`: an instant, or `none` on error. -/
  ParseRFC3339 : String → Option Int
  /-- The call `t.UTC().Format("2006-01-02 15:04:05")`. -/
  FormatUTC : Int → String
  /-- The function `strings.ToUpper`. -/
  ToUpper : String → String
  /-- The text `fmt.Sprintf("%v", v)`. -/
  SprintV : Value → String

/-- The struct `CustomConsoleWriter` over a sink with states `σ`: `Out s p` is
the call `w.Out.Write(p)` in state `s`, giving the next state and the pair
`(n, err)` the call returns. -/
structure CustomConsoleWriter (σ : Type) where
  Out : σ → Bytes → σ × (Int × Option String)
  TimeFormat : String

/-- The `switch level` of `Write`: no case leaves the initial color `White`. -/
def switchLevelColor (level : String) : String :=
  if level = "TRACE" then Gray
  else if level = "DEBUG" then Blue
  else if level = "INFO" then Green
  else if level = "WARN" then Yellow
  else if level = "ERROR" then Red
  else if level = "FATAL" then Purple
  else if level = "PANIC" then Purple
  else White

/-- The condition of the `range event` loop of `Write`. -/
def isExtraKey (k : String) : Bool :=
  k != "time" && k != "level" && k != "message" && k != "caller"

/-- The text `output` that `Write` builds from a decoded record. -/
def formatLine (lib : Lib) (event : FieldMap) : String :=
  let pid := lib.Getpid
  let timeStr :=
    match event.lookup "time" with
    | some (.str ts) =>
      (match lib.ParseRFC3339 ts with
       | some t => lib.FormatUTC t
       | none => "")
    | _ => ""
  let levelAndColor : String × String :=
    match event.lookup "level" with
    | some (.str l) => (lib.ToUpper l, switchLevelColor (lib.ToUpper l))
    | _ => ("INFO", White)
  let level := levelAndColor.1
  let levelColor := levelAndColor.2
  let message :=
    match event.lookup "message" with
    | some (.str msg) => msg
    | _ => ""
  let caller :=
    match event.lookup "caller" with
    | some (.str c) => c
    | _ => ""
  let kvPairs := (event.entries.filter (fun e => isExtraKey e.1)).map
    (fun e => e.1 ++ " = " ++ lib.SprintV e.2)
  let output := "[" ++ toString pid ++ "] " ++ timeStr ++ " " ++ levelColor ++ "[" ++ level
    ++ "]" ++ Reset ++ " " ++ message
  let output := if kvPairs.length > 0 then output ++ (" (" ++ ", ".intercalate kvPairs ++ ")")
    else output
  let output := if caller ≠ "" then output ++ (" " ++ caller) else output
  output ++ "\n"

/-- The method `CustomConsoleWriter.Write`. -/
def CustomConsoleWriter.Write {σ : Type} (lib : Lib) (w : CustomConsoleWriter σ) (s : σ)
    (p : Bytes) : σ × (Int × Option String) :=
  match lib.Unmarshal p with
  | .error _ => w.Out s p
  | .ok event => w.Out s (toBytes (formatLine lib event))

end util

/-! ## `main.go` -/

namespace server

open util

/-- The Go type `http.Header`, a `map[string][]string`. -/
abbrev Header := AList (fun _ : String => List String)

/-- The method `Header.Get` for a key already in canonical form, as
"X-Forwarded-For" and "Referer" are: the first value stored under the key. -/
def Header.Get (h : Header) (key : String) : String :=
  match h.lookup key with
  | some (v :: _) => v
  | _ => ""

/-- The fields of `*http.Request` that `ReqLogger` reads. `Body` is `none` for
a nil body and otherwise the bytes `io.ReadAll` returns, as text. -/
structure Request where
  Proto : String
  Method : String
  Path : String
  RemoteAddr : String
  Header : Header
  Body : Option String

/-- The method `Request.Referer`. -/
def Request.Referer (r : Request) : String := Header.Get r.Header "Referer"

/-- The struct `responseWriter` around a response writer with states `W`. -/
structure responseWriter (W : Type) where
  ResponseWriter : W
  statusCode : Int

/-- The method `responseWriter.WriteHeader`; `wh` is `WriteHeader` of the
wrapped writer. -/
def responseWriter.WriteHeader {W : Type} (wh : W → Int → W) (rw : responseWriter W)
    (code : Int) : responseWriter W :=
  { ResponseWriter := wh rw.ResponseWriter code, statusCode := code }

/-- The wrapper `ReqLogger` creates:
`&responseWriter{ResponseWriter: w, statusCode: http.StatusOK}`. -/
def newResponseWriter {W : Type} (w : W) : responseWriter W :=
  { ResponseWriter := w, statusCode := 200 }

/-- A sequence of `WriteHeader` calls on a wrapper. -/
def responseWriter.WriteHeaders {W : Type} (wh : W → Int → W) (rw : responseWriter W)
    (codes : List Int) : responseWriter W :=
  codes.foldl (responseWriter.WriteHeader wh) rw

/-- A downstream handler: the codes it passes to `WriteHeader`, in order, and
the request as it leaves it. -/
abbrev Handler := Request → List Int × Request

/-- The client address `ReqLogger` resolves. -/
def resolveIP (r : Request) : String :=
  let ip := r.RemoteAddr
  let forwarded := Header.Get r.Header "X-Forwarded-For"
  if forwarded ≠ "" then forwarded else ip

/-- The two field mappings `ReqLogger` passes to `util.Info`; `r` is the request
on entry, `r1` the request after the handler ran. -/
def requestFields (r r1 : Request) (statusCode : Int) (duration : String) : List FieldMap :=
  let requestBody := match r.Body with
    | some buf => buf
    | none => ""
  let ip := resolveIP r
  let referrer := if r.Referer = "" then "N/A" else r.Referer
  let headers := r.Header.entries.map (fun e => (e.1, Value.str (", ".intercalate e.2)))
  [ FieldMap.ofList
      [ ("protocol", .str r1.Proto),
        ("status", .int statusCode),
        ("method", .str r1.Method),
        ("url", .str r1.Path),
        ("ip", .str ip),
        ("duration", .str duration) ],
    FieldMap.ofList
      [ ("referrer", .str referrer),
        ("headers", .map headers),
        ("body", .str requestBody) ] ]

/-- The handler `ReqLogger(next)` on one request: the wrapped writer's final
state and the run of the one `util.Info` call. `duration` is the text of
`time.Since(start)`. -/
def ReqLogger {W : Type} (g : Logger) (rt : Runtime) (wh : W → Int → W) (next : Handler)
    (duration : String) (w : W) (r : Request) : W × Run :=
  let rw := newResponseWriter w
  let served := next r
  let rw := rw.WriteHeaders wh served.1
  (rw.ResponseWriter, util.Info g rt "Request Information"
    (requestFields r served.2 rw.statusCode duration))

end server

/-! ## Observations and sample inputs -/

namespace util

/-- The structured records among the outputs of a call. -/
def Run.records (r : Run) : List LogEvent :=
  r.out.filterMap (fun e => match e with
    | .record ev => some ev
    | _ => none)

/-- The texts a call printed on standard output. -/
def Run.stdoutTexts (r : Run) : List String :=
  r.out.filterMap (fun e => match e with
    | .stdout text => some text
    | _ => none)

/-- The answers of `filepath.Rel` on the sample paths: a path that is not
rooted cannot be made relative to a rooted directory. -/
def sampleRel (base targ : String) : Except String String :=
  if base.data.head? = some '/' ∧ targ.data.head? ≠ some '/' then
    .error ("Rel: can't make " ++ targ ++ " relative to " ++ base)
  else if base = "/srv" ∧ targ = "/srv/route/file.go" then .ok "route/file.go"
  else .ok targ

/-- A call from line 42 of `/srv/route/file.go`. -/
def sampleRuntime : Runtime :=
  { Caller := some ("/srv/route/file.go", 42), Rel := sampleRel,
    Stack := "goroutine 1 [running]:", Now := "2024-01-02T03:04:05Z",
    GlobalLevel := zerolog.TraceLevel }

/-- The same call in a binary whose recorded file paths are not rooted. -/
def trimpathRuntime : Runtime :=
  { sampleRuntime with Caller := some ("srv/route/file.go", 42) }

/-- A call whose frame cannot be resolved. -/
def noFrameRuntime : Runtime :=
  { sampleRuntime with Caller := none }

/-- The logger `New` builds in the directory `/srv`. -/
def sampleLogger : Logger := { logger := zerolog.New, cwd := "/srv" }

/-- The mapping `{"a": 1, "b": 2}`. -/
def earlierMap : FieldMap := FieldMap.ofList [("a", .int 1), ("b", .int 2)]

/-- The mapping `{"a": 3}`. -/
def laterMap : FieldMap := FieldMap.ofList [("a", .int 3)]

/-- The mapping with the one entry `"stack": true`. -/
def stackOn : FieldMap := FieldMap.ofList [("stack", .bool true)]

/-- The line the specification gives for a record without extra keys and
without caller: `[<pid>] <time> <color><LEVEL><reset> <message>` and a newline. -/
def Spec.claimedLine (pid time color level message : String) : String :=
  "[" ++ pid ++ "] " ++ time ++ " " ++ color ++ level ++ Reset ++ " " ++ message ++ "\n"

/-- The time of a record as the specification words it: the UTC rendering of
the record's time, empty if missing or unparseable. -/
def Spec.timeText (lib : Lib) (event : FieldMap) : String :=
  match event.lookup "time" with
  | some (.str ts) => ((lib.ParseRFC3339 ts).map lib.FormatUTC).getD ""
  | _ => ""

/-- The level name of a record: the uppercased level, "INFO" without one. -/
def Spec.levelName (lib : Lib) (event : FieldMap) : String :=
  match event.lookup "level" with
  | some (.str l) => lib.ToUpper l
  | _ => "INFO"

/-- The fixed level-to-color table; a name outside the table gets `White`. -/
def Spec.colorTable (level : String) : String :=
  match level with
  | "TRACE" => Gray
  | "DEBUG" => Blue
  | "INFO" => Green
  | "WARN" => Yellow
  | "ERROR" => Red
  | "FATAL" => Purple
  | "PANIC" => Purple
  | _ => White

/-- The color of a record: the table color of its level name when it has a
level, `White` when it has none. -/
def Spec.levelColor (lib : Lib) (event : FieldMap) : String :=
  match event.lookup "level" with
  | some (.str l) => Spec.colorTable (lib.ToUpper l)
  | _ => White

/-- The message of a record, empty without one. -/
def Spec.messageText (event : FieldMap) : String :=
  match event.lookup "message" with
  | some (.str msg) => msg
  | _ => ""

/-- The line up to and including the message, with the level in brackets. -/
def Spec.lineHead (lib : Lib) (event : FieldMap) : String :=
  "[" ++ toString lib.Getpid ++ "] " ++ Spec.timeText lib event ++ " "
    ++ Spec.levelColor lib event ++ "[" ++ Spec.levelName lib event ++ "]" ++ Reset ++ " "
    ++ Spec.messageText event

/-- The caller segment: a blank and the caller, or nothing for an empty or
missing caller. -/
def Spec.callerSegment (event : FieldMap) : String :=
  match event.lookup "caller" with
  | some (.str c) => if c = "" then "" else " " ++ c
  | _ => ""

/-- The field segment for the listed extra entries: nothing for an empty list,
otherwise the entries as `key = value`, joined by ", ", in parentheses after a
blank. -/
def Spec.fieldSegment (lib : Lib) (extra : List (String × Value)) : String :=
  if extra.isEmpty then ""
  else " (" ++ ", ".intercalate (extra.map (fun kv => kv.1 ++ " = " ++ lib.SprintV kv.2)) ++ ")"

/-- The entries the `range event` loop of `Write` keeps, in visiting order. -/
def extraEntries (event : FieldMap) : List (String × Value) :=
  (event.entries.filter (fun e => isExtraKey e.1)).map (fun e => (e.1, e.2))

/-- A sink that keeps every write and reports it complete. -/
def recordingWriter : CustomConsoleWriter (List Bytes) :=
  { Out := fun s p => (s ++ [p], ((p.length : Int), none)),
    TimeFormat := "2006-01-02T15:04:05Z07:00" }

/-- A record with time, level and message only. -/
def plainRecord : FieldMap :=
  FieldMap.ofList
    [("level", .str "warn"), ("time", .str "2024-01-02T03:04:05Z"), ("message", .str "disk low")]

/-- The serialized `plainRecord`. -/
def plainPayload : Bytes :=
  toBytes "\x7b\"level\":\"warn\",\"time\":\"2024-01-02T03:04:05Z\",\"message\":\"disk low\"\x7d"

/-- A record with a caller and two extra keys. -/
def richRecord : FieldMap :=
  FieldMap.ofList
    [("level", .str "info"), ("caller", .str "main.go:69"), ("method", .str "GET"),
     ("url", .str "/file/readme.txt"), ("message", .str "Request Information")]

/-- The serialized `richRecord`. -/
def richPayload : Bytes :=
  toBytes ("\x7b\"level\":\"info\",\"caller\":\"main.go:69\",\"method\":\"GET\","
    ++ "\"url\":\"/file/readme.txt\",\"message\":\"Request Information\"\x7d")

/-- A payload that is not a JSON document. -/
def garbagePayload : Bytes := toBytes "listening on :4000"

/-- The four bytes `null`: a JSON document that is not an object. -/
def nullPayload : Bytes := toBytes "null"

/-- The library answers on the sample inputs. For `null` the decoder sets the
map to nil, a map without keys, and returns no error. -/
def sampleLib : Lib :=
  { Unmarshal := fun p =>
      if p = nullPayload then .ok (∅ : FieldMap)
      else if p = plainPayload then .ok plainRecord
      else if p = richPayload then .ok richRecord
      else .error "invalid character 'l' looking for beginning of value",
    Getpid := 4242,
    ParseRFC3339 := fun ts => if ts = "2024-01-02T03:04:05Z" then some 1704164645 else none,
    FormatUTC := fun t => if t = 1704164645 then "2024-01-02 03:04:05" else "",
    ToUpper := fun l => String.mk (l.data.map Char.toUpper),
    SprintV := fun v => match v with
      | .str text => text
      | .bool b => toString b
      | .int i => toString i
      | _ => "" }

end util

namespace server

open util

/-- A wrapped writer that keeps the codes it is given. -/
def recordCode (w : List Int) (code : Int) : List Int := w ++ [code]

/-- A GET request that went through a proxy. -/
def sampleRequest : Request :=
  { Proto := "HTTP/1.1", Method := "GET", Path := "/file/readme.txt",
    RemoteAddr := "10.0.0.7:51234",
    Header := AList.insert "X-Forwarded-For" ["203.0.113.5"] ∅,
    Body := none }

/-- A handler that sets 404 and then 200. -/
def sampleHandler : Handler := fun r => ([404, 200], r)

end server

/-! ## Properties -/

namespace util

/-! ### Field merge -/

/-- Ranging over the entries of one mapping and assigning each to `m`: a key of
the mapping gets the mapping's value, any other key keeps what `m` had. -/
theorem lookup_rangeAssign (k : String) (es : List (Sigma fun _ : String => Value))
    (hnd : es.NodupKeys) (m : FieldMap) :
    (es.foldl (fun m e => FieldMap.assign m e.1 e.2) m).lookup k
      = (es.dlookup k <|> m.lookup k) := by
  induction es generalizing m with
  | nil => simp
  | cons e es ih =>
    obtain ⟨a, b⟩ := e
    rw [List.nodupKeys_cons] at hnd
    rw [List.foldl_cons, ih hnd.2]
    by_cases hk : k = a
    · subst hk
      have hnone : es.dlookup k = none := List.dlookup_eq_none.mpr hnd.1
      simp [hnone, FieldMap.assign]
    · have hskip : List.dlookup k ((⟨a, b⟩ : Sigma fun _ : String => Value) :: es)
          = List.dlookup k es := List.dlookup_cons_ne es ⟨a, b⟩ hk
      simp [hskip, FieldMap.assign, AList.lookup_insert_ne hk]

/-- The merge loop started from `acc`: the last mapping that has the key
decides, and `acc` is consulted only when none has it. -/
theorem lookup_mergeInto (k : String) (fields : List FieldMap) (acc : FieldMap) :
    (fields.foldl
      (fun merged field => field.entries.foldl (fun m e => FieldMap.assign m e.1 e.2) merged)
      acc).lookup k
      = (fields.reverse.findSome? (fun m => m.lookup k) <|> acc.lookup k) := by
  induction fields generalizing acc with
  | nil => simp
  | cons f fs ih =>
    rw [List.foldl_cons, ih, lookup_rangeAssign k _ f.nodupKeys]
    simp [List.findSome?_append, AList.lookup]
    cases h1 : List.findSome? (fun m => List.dlookup k m.entries) fs.reverse <;>
      cases h2 : List.dlookup k f.entries <;> simp [List.findSome?, h2]

/-- The value `flatten` stores for a key is the one found by searching the
mappings from the last to the first. -/
theorem lookup_flatten (k : String) (fields : List FieldMap) :
    (flatten fields).lookup k = fields.reverse.findSome? (fun m => m.lookup k) := by
  unfold flatten
  rw [lookup_mergeInto]
  simp

/-- A search that finds nothing in any element finds nothing. -/
theorem findSome?_lookup_none (k : String) (ms : List FieldMap) (h : ∀ m ∈ ms, k ∉ m) :
    ms.findSome? (fun m => m.lookup k) = none := by
  induction ms with
  | nil => rfl
  | cons m ms ih =>
    have hm : m.lookup k = none := AList.lookup_eq_none.mpr (h m (List.mem_cons_self _ _))
    simp only [List.findSome?, hm]
    exact ih (fun m' hm' => h m' (List.mem_cons_of_mem _ hm'))

/-- C2: `flatten` is last-write-wins. The merged mapping has a key exactly when
some mapping of the list has it; its value is then the value in the last mapping
of the list that has the key; and of two mappings that both have key "a" the
later one's value is kept. -/
theorem flatten_last_write_wins (fields : List FieldMap) (k : String) :
    (k ∈ flatten fields ↔ ∃ m ∈ fields, k ∈ m) ∧
    (∀ (before after : List FieldMap) (m : FieldMap),
        fields = before ++ m :: after → k ∈ m → (∀ m' ∈ after, k ∉ m') →
        (flatten fields).lookup k = m.lookup k) ∧
    (∀ (m₁ m₂ : FieldMap) (v₁ v₂ : Value),
        m₁.lookup "a" = some v₁ → m₂.lookup "a" = some v₂ →
        (flatten [m₁, m₂]).lookup "a" = some v₂) := by
  refine ⟨?_, ?_, ?_⟩
  · rw [← AList.lookup_isSome, lookup_flatten]
    constructor
    · intro h
      obtain ⟨v, hv⟩ := Option.isSome_iff_exists.mp h
      obtain ⟨m, hm, hmv⟩ := List.exists_of_findSome?_eq_some hv
      exact ⟨m, List.mem_reverse.mp hm, AList.lookup_isSome.mp (by simp [hmv])⟩
    · rintro ⟨m, hm, hk⟩
      cases hfind : fields.reverse.findSome? (fun m => m.lookup k) with
      | some v => rfl
      | none =>
        have hnone := List.findSome?_eq_none_iff.mp hfind m (List.mem_reverse.mpr hm)
        exact absurd hk (AList.lookup_eq_none.mp hnone)
  · intro before after m hsplit hk hafter
    obtain ⟨v, hv⟩ := Option.isSome_iff_exists.mp (AList.lookup_isSome.mpr hk)
    rw [lookup_flatten, hsplit, List.reverse_append, List.reverse_cons, List.append_assoc,
      List.findSome?_append,
      findSome?_lookup_none k after.reverse (fun m' hm' => hafter m' (List.mem_reverse.mp hm'))]
    simp [List.findSome?, hv]
  · intro m₁ m₂ v₁ v₂ _ h₂
    rw [lookup_flatten]
    simp [List.findSome?, h₂]

/-- C2 at a concrete input: merging `{"a": 1, "b": 2}` and then `{"a": 3}` keeps
3 under "a", the later value, and 2 under "b", which only the first mapping has. -/
theorem flatten_last_write_wins_witness :
    (flatten [earlierMap, laterMap]).lookup "a" = some (.int 3) ∧
    (flatten [earlierMap, laterMap]).lookup "b" = some (.int 2) ∧
    "b" ∈ flatten [earlierMap, laterMap] :=
  ⟨(flatten_last_write_wins [earlierMap, laterMap] "a").2.2 earlierMap laterMap (.int 1)
      (.int 3) rfl rfl,
   (flatten_last_write_wins [earlierMap, laterMap] "b").2.1 [] [laterMap] earlierMap rfl
      (AList.lookup_isSome.mp (by rfl))
      (fun m hm => by
        rw [List.mem_singleton.mp hm]
        exact AList.lookup_eq_none.mp rfl),
   (flatten_last_write_wins [earlierMap, laterMap] "b").1.mpr
      ⟨earlierMap, List.mem_cons_self _ _, AList.lookup_isSome.mp (by rfl)⟩⟩

end util

namespace server

/-! ### The response capture wrapper -/

/-- The status a wrapper records after a sequence of calls is the last code of
the sequence, or the status it had when the sequence is empty. -/
theorem statusCode_WriteHeaders {W : Type} (wh : W → Int → W) (codes : List Int)
    (rw : responseWriter W) :
    (rw.WriteHeaders wh codes).statusCode = codes.getLast?.getD rw.statusCode := by
  induction codes generalizing rw with
  | nil => rfl
  | cons c cs ih =>
    have hstep : rw.WriteHeaders wh (c :: cs) = (rw.WriteHeader wh c).WriteHeaders wh cs := rfl
    rw [hstep, ih]
    cases cs with
    | nil => rfl
    | cons d ds =>
      have hlast : (c :: d :: ds).getLast? = (d :: ds).getLast? := List.getLast?_cons_cons
      rw [hlast]
      cases hd : (d :: ds).getLast? with
      | none => simp at hd
      | some x => rfl

/-- The wrapped writer receives every code, in order. -/
theorem inner_WriteHeaders {W : Type} (wh : W → Int → W) (codes : List Int)
    (rw : responseWriter W) :
    (rw.WriteHeaders wh codes).ResponseWriter = codes.foldl wh rw.ResponseWriter := by
  induction codes generalizing rw with
  | nil => rfl
  | cons c cs ih =>
    have hstep : rw.WriteHeaders wh (c :: cs) = (rw.WriteHeader wh c).WriteHeaders wh cs := rfl
    rw [hstep, ih]
    rfl

/-- C5: the response capture wrapper records the last explicitly set status. On
a wrapper created by the middleware the recorded status is 200 after no call and
the code of the last call otherwise (404 then 200 records 200); every call stores
its code and forwards the same code to the wrapped writer, which therefore
receives all codes in order. -/
theorem WriteHeader_last_set_wins {W : Type} (wh : W → Int → W) (w : W) (codes : List Int) :
    ((newResponseWriter w).WriteHeaders wh codes).statusCode = codes.getLast?.getD 200 ∧
    ((newResponseWriter w).WriteHeaders wh []).statusCode = 200 ∧
    ((newResponseWriter w).WriteHeaders wh [404, 200]).statusCode = 200 ∧
    (∀ (rw : responseWriter W) (code : Int),
        (rw.WriteHeader wh code).statusCode = code ∧
        (rw.WriteHeader wh code).ResponseWriter = wh rw.ResponseWriter code) ∧
    ((newResponseWriter w).WriteHeaders wh codes).ResponseWriter = codes.foldl wh w := by
  refine ⟨?_, rfl, rfl, fun _ _ => ⟨rfl, rfl⟩, ?_⟩
  · exact statusCode_WriteHeaders wh codes (newResponseWriter w)
  · exact inner_WriteHeaders wh codes (newResponseWriter w)

end server

namespace util

/-! ### Level filtering, stack traces and caller resolution -/

/-- An event below the logger's level gets the nil event. -/
theorem WithLevel_below (z : zerolog.Logger) (g level : zerolog.Level) (h : level < z.level) :
    z.WithLevel g level = false := by
  unfold zerolog.Logger.WithLevel zerolog.Logger.should
  split
  · rfl
  · simp [h]

/-- The method `logWithFields` once the caller is resolved. -/
theorem logWithFields_of_caller (l : Logger) (rt : Runtime) (level : zerolog.Level)
    (msg : String) (fields : FieldMap) (caller : String)
    (hc : getCaller rt l.cwd = .ok caller) :
    l.logWithFields rt level msg fields =
      if l.logger.WithLevel rt.GlobalLevel level then
        ⟨[.record { level := level, caller := caller, fields := fields, time := rt.Now,
                    message := msg }], .returned⟩
      else ⟨[], .returned⟩ := by
  unfold Logger.logWithFields
  rw [hc]

/-- The method `logWithFields` when `getCaller` ends the process. -/
theorem logWithFields_of_fatal (l : Logger) (rt : Runtime) (level : zerolog.Level)
    (msg : String) (fields : FieldMap) (text : String)
    (hc : getCaller rt l.cwd = .error text) :
    l.logWithFields rt level msg fields = ⟨[.stderr text], .exited 1⟩ := by
  unfold Logger.logWithFields
  rw [hc]

/-- Below the threshold `logWithFields` hands no record to the sink. -/
theorem logWithFields_below (l : Logger) (rt : Runtime) (level : zerolog.Level)
    (msg : String) (fields : FieldMap) (h : level < l.logger.level) :
    l.logWithFields rt level msg fields =
      match getCaller rt l.cwd with
      | .error text => ⟨[.stderr text], .exited 1⟩
      | .ok _ => ⟨[], .returned⟩ := by
  unfold Logger.logWithFields
  cases getCaller rt l.cwd with
  | error text => rfl
  | ok caller => simp [WithLevel_below l.logger rt.GlobalLevel level h]

/-- C1, as stated, fails: with the threshold at Fatal, an `Error` call (level
Error, below the threshold) still prints the stack trace on the console, and so
does a `Warn` call whose fields set "stack" to true. -/
theorem sub_threshold_still_prints :
    zerolog.ErrorLevel < zerolog.FatalLevel ∧
    ((SetLevel zerolog.FatalLevel sampleLogger).emit sampleRuntime
        (.Error (some "disk full")) "write failed" []).out
      = [.stdout "\x1b[31m goroutine 1 [running]: \x1b[0m\n"] ∧
    zerolog.WarnLevel < zerolog.FatalLevel ∧
    ((SetLevel zerolog.FatalLevel sampleLogger).emit sampleRuntime
        .Warn "disk low" [stackOn]).out
      = [.stdout "\x1b[33m goroutine 1 [running]: \x1b[0m\n"] :=
  ⟨by decide, rfl, by decide, rfl⟩

/-- C1, amended: for every logger, every threshold set through `SetLevel` and
every emission operation whose level is below the threshold, no structured
record reaches the console writer; and when caller resolution returns, `Trace`,
`Debug`, `Info` and `ErrorMsg` write nothing at all, `Warn` writes only the raw
stack trace and only when the merged fields map "stack" to true, and `Error`
with a cause writes only the raw stack trace. -/
theorem sub_threshold_no_record (l : Logger) (t : zerolog.Level) (rt : Runtime)
    (op : Emission) (msg : String) (fields : List FieldMap) (hlt : op.level < t) :
    ((SetLevel t l).emit rt op msg fields).records = [] ∧
    (∀ caller : String, getCaller rt l.cwd = .ok caller →
      match op with
      | .Warn =>
        ((SetLevel t l).emit rt op msg fields).out =
          if stackIsTrue (flatten fields) then [.stdout (Println [Yellow, rt.Stack, Reset])]
          else []
      | .Error (some _) =>
        ((SetLevel t l).emit rt op msg fields).out = [.stdout (Println [Red, rt.Stack, Reset])]
      | .Error none => True
      | _ => ((SetLevel t l).emit rt op msg fields).out = []) := by
  have hbelow : ∀ (level : zerolog.Level) (fs : FieldMap), level < t →
      (SetLevel t l).logWithFields rt level msg fs =
        match getCaller rt l.cwd with
        | .error text => ⟨[.stderr text], .exited 1⟩
        | .ok _ => ⟨[], .returned⟩ :=
    fun level fs h => logWithFields_below (SetLevel t l) rt level msg fs h
  constructor
  · cases op with
    | Error err =>
      cases err with
      | none => rfl
      | some text =>
        simp only [Logger.emit, Logger.Error, fun fs => hbelow zerolog.ErrorLevel fs hlt]
        cases getCaller rt l.cwd <;> rfl
    | Warn =>
      simp only [Logger.emit, Logger.Warn, fun fs => hbelow zerolog.WarnLevel fs hlt]
      cases getCaller rt l.cwd <;> cases stackIsTrue (flatten fields) <;> rfl
    | Trace =>
      simp only [Logger.emit, Logger.Trace, fun fs => hbelow zerolog.TraceLevel fs hlt]
      cases getCaller rt l.cwd <;> rfl
    | Debug =>
      simp only [Logger.emit, Logger.Debug, fun fs => hbelow zerolog.DebugLevel fs hlt]
      cases getCaller rt l.cwd <;> rfl
    | Info =>
      simp only [Logger.emit, Logger.Info, fun fs => hbelow zerolog.InfoLevel fs hlt]
      cases getCaller rt l.cwd <;> rfl
    | ErrorMsg =>
      simp only [Logger.emit, Logger.ErrorMsg, fun fs => hbelow zerolog.ErrorLevel fs hlt]
      cases getCaller rt l.cwd <;> rfl
  · intro caller hc
    cases op with
    | Error err =>
      cases err with
      | none => trivial
      | some text =>
        simp only [Logger.emit, Logger.Error, fun fs => hbelow zerolog.ErrorLevel fs hlt, hc]
        rfl
    | Warn =>
      simp only [Logger.emit, Logger.Warn, fun fs => hbelow zerolog.WarnLevel fs hlt, hc]
      cases stackIsTrue (flatten fields) <;> rfl
    | Trace => simp only [Logger.emit, Logger.Trace, fun fs => hbelow zerolog.TraceLevel fs hlt, hc]
    | Debug => simp only [Logger.emit, Logger.Debug, fun fs => hbelow zerolog.DebugLevel fs hlt, hc]
    | Info => simp only [Logger.emit, Logger.Info, fun fs => hbelow zerolog.InfoLevel fs hlt, hc]
    | ErrorMsg => simp only [Logger.emit, Logger.ErrorMsg, fun fs => hbelow zerolog.ErrorLevel fs hlt, hc]

/-- C1, amended, at a concrete input: an `Info` call on a logger whose
threshold was set to Warn writes nothing. -/
theorem sub_threshold_no_record_witness :
    Emission.Info.level < zerolog.WarnLevel ∧
    ((SetLevel zerolog.WarnLevel sampleLogger).emit sampleRuntime .Info "started" []).records
      = [] ∧
    ((SetLevel zerolog.WarnLevel sampleLogger).emit sampleRuntime .Info "started" []).out = [] :=
  ⟨by decide,
   (sub_threshold_no_record sampleLogger zerolog.WarnLevel sampleRuntime .Info "started" []
      (by decide)).1,
   (sub_threshold_no_record sampleLogger zerolog.WarnLevel sampleRuntime .Info "started" []
      (by decide)).2 "route/file.go:42" rfl⟩

/-- C7, as stated, fails: on a logger whose threshold is Error, the call
`Warn("disk low", {"stack": true})` produces no structured event at all, yet the
stack trace is printed. -/
theorem Warn_stack_without_event :
    zerolog.WarnLevel < zerolog.ErrorLevel ∧
    ((SetLevel zerolog.ErrorLevel sampleLogger).Warn sampleRuntime "disk low" [stackOn]).records
      = [] ∧
    ((SetLevel zerolog.ErrorLevel sampleLogger).Warn sampleRuntime "disk low" [stackOn]).out
      = [.stdout "\x1b[33m goroutine 1 [running]: \x1b[0m\n"] :=
  ⟨by decide, rfl, rfl⟩

/-- C7, amended: whenever caller resolution returns, `Warn` prints the raw stack
trace exactly when the merged fields map "stack" to the boolean `true`, whatever
the threshold; and on a logger whose threshold admits the Warn level it produces
exactly one structured Warn event, carrying the message and the merged fields,
before that print. -/
theorem Warn_event_and_stack (l : Logger) (rt : Runtime) (msg : String)
    (fields : List FieldMap) (caller : String) (hc : getCaller rt l.cwd = .ok caller) :
    (stackIsTrue (flatten fields) = true ↔
      (flatten fields).lookup "stack" = some (.bool true)) ∧
    (l.Warn rt msg fields).stdoutTexts =
      (if stackIsTrue (flatten fields) then [Println [Yellow, rt.Stack, Reset]] else []) ∧
    (l.logger.WithLevel rt.GlobalLevel zerolog.WarnLevel = true →
      (l.Warn rt msg fields).out =
        .record { level := zerolog.WarnLevel, caller := caller, fields := flatten fields,
                  time := rt.Now, message := msg } ::
          (if stackIsTrue (flatten fields) then [.stdout (Println [Yellow, rt.Stack, Reset])]
           else [])) := by
  refine ⟨?_, ?_, ?_⟩
  · unfold stackIsTrue
    split
    · next h => simp [h]
    · next h =>
      constructor
      · intro hf
        exact absurd hf (by simp)
      · intro hs
        exact absurd hs h
  · simp only [Logger.Warn, logWithFields_of_caller l rt _ msg _ caller hc]
    cases l.logger.WithLevel rt.GlobalLevel zerolog.WarnLevel <;>
      cases stackIsTrue (flatten fields) <;> rfl
  · intro hen
    simp only [Logger.Warn, logWithFields_of_caller l rt _ msg _ caller hc, hen]
    cases stackIsTrue (flatten fields) <;> rfl

/-- C7, amended, at a concrete input: `Warn("disk low", {"stack": true})` on
the logger as constructed gives one Warn event and then the stack trace. -/
theorem Warn_event_and_stack_witness :
    (sampleLogger.Warn sampleRuntime "disk low" [stackOn]).stdoutTexts
      = [Println [Yellow, "goroutine 1 [running]:", Reset]] ∧
    (sampleLogger.Warn sampleRuntime "disk low" [stackOn]).out =
      [.record { level := zerolog.WarnLevel, caller := "route/file.go:42",
                 fields := flatten [stackOn], time := "2024-01-02T03:04:05Z",
                 message := "disk low" },
       .stdout (Println [Yellow, "goroutine 1 [running]:", Reset])] :=
  ⟨(Warn_event_and_stack sampleLogger sampleRuntime "disk low" [stackOn] "route/file.go:42"
      rfl).2.1,
   (Warn_event_and_stack sampleLogger sampleRuntime "disk low" [stackOn] "route/file.go:42"
      rfl).2.2 rfl⟩

/-- C8: the package-level `ErrMsg` passes a nil cause to `Logger.Error`, whose
first use of the cause is `err.Error()`: every call panics before anything is
emitted. The method `Logger.ErrorMsg`, which `ErrMsg` does not call, emits the
one Error-level record with the message and the merged fields. -/
theorem ErrMsg_panics (g : Logger) (rt : Runtime) (msg : String) (fields : List FieldMap) :
    (ErrMsg g rt msg fields).out = [] ∧
    (ErrMsg g rt msg fields).status
      = .panicked "runtime error: invalid memory address or nil pointer dereference" ∧
    (∀ caller : String, getCaller rt g.cwd = .ok caller →
      g.logger.WithLevel rt.GlobalLevel zerolog.ErrorLevel = true →
      g.ErrorMsg rt msg fields =
        ⟨[.record { level := zerolog.ErrorLevel, caller := caller, fields := flatten fields,
                    time := rt.Now, message := msg }], .returned⟩) := by
  refine ⟨rfl, rfl, ?_⟩
  intro caller hc hen
  simp only [Logger.ErrorMsg, logWithFields_of_caller g rt _ msg _ caller hc, hen]
  rfl

/-- C10, as stated, fails: when the recorded file path is not rooted,
`filepath.Rel` fails, `getCaller` does not return a caller string but reports
through `log.Fatalln`, and the `Info` call emits no event and ends the process
with status 1. -/
theorem getCaller_aborts_on_rel_failure :
    sampleRel "/srv" "srv/route/file.go"
      = .error "Rel: can't make srv/route/file.go relative to /srv" ∧
    getCaller trimpathRuntime sampleLogger.cwd
      = .error "Error getting current dir Rel: can't make srv/route/file.go relative to /srv\n" ∧
    (sampleLogger.Info trimpathRuntime "hello" []).records = [] ∧
    (sampleLogger.Info trimpathRuntime "hello" []).status = .exited 1 :=
  ⟨rfl, rfl, rfl, rfl⟩

/-- C10, amended: when the caller frame cannot be resolved, `getCaller` returns
the empty string and `logWithFields` still emits the event (if its level is
admitted) with an empty caller; when the path of the frame cannot be made
relative to the working directory, `getCaller` does not return: the failure is
reported through `log.Fatalln`, no event is emitted and the process exits with
status 1. -/
theorem getCaller_outcomes (l : Logger) (rt : Runtime) (level : zerolog.Level) (msg : String)
    (fields : FieldMap) :
    (rt.Caller = none →
      getCaller rt l.cwd = .ok "" ∧
      l.logWithFields rt level msg fields =
        if l.logger.WithLevel rt.GlobalLevel level then
          ⟨[.record { level := level, caller := "", fields := fields, time := rt.Now,
                      message := msg }], .returned⟩
        else ⟨[], .returned⟩) ∧
    (∀ (file : String) (line : Int) (err : String),
      rt.Caller = some (file, line) → rt.Rel l.cwd file = .error err →
      getCaller rt l.cwd = .error (Println ["Error getting current dir", err]) ∧
      l.logWithFields rt level msg fields =
        ⟨[.stderr (Println ["Error getting current dir", err])], .exited 1⟩) := by
  constructor
  · intro hnone
    have hc : getCaller rt l.cwd = .ok "" := by
      unfold getCaller
      rw [hnone]
    exact ⟨hc, logWithFields_of_caller l rt level msg fields "" hc⟩
  · intro file line err hsome hrel
    have hc : getCaller rt l.cwd = .error (Println ["Error getting current dir", err]) := by
      unfold getCaller
      rw [hsome]
      simp only [hrel]
    exact ⟨hc, logWithFields_of_fatal l rt level msg fields _ hc⟩

/-- C10, amended, at concrete inputs: without a resolvable frame the Info event
is emitted with an empty caller; with a file path that is not rooted the call
ends the process and emits nothing. -/
theorem getCaller_outcomes_witness :
    (getCaller noFrameRuntime sampleLogger.cwd = .ok "" ∧
      sampleLogger.logWithFields noFrameRuntime zerolog.InfoLevel "hello" laterMap =
        ⟨[.record { level := zerolog.InfoLevel, caller := "", fields := laterMap,
                    time := "2024-01-02T03:04:05Z", message := "hello" }], .returned⟩) ∧
    (getCaller trimpathRuntime sampleLogger.cwd =
        .error (Println ["Error getting current dir",
          "Rel: can't make srv/route/file.go relative to /srv"]) ∧
      sampleLogger.logWithFields trimpathRuntime zerolog.InfoLevel "hello" laterMap =
        ⟨[.stderr (Println ["Error getting current dir",
          "Rel: can't make srv/route/file.go relative to /srv"])], .exited 1⟩) :=
  ⟨(getCaller_outcomes sampleLogger noFrameRuntime zerolog.InfoLevel "hello" laterMap).1 rfl,
   (getCaller_outcomes sampleLogger trimpathRuntime zerolog.InfoLevel "hello" laterMap).2
      "srv/route/file.go" 42 "Rel: can't make srv/route/file.go relative to /srv" rfl rfl⟩

end util

namespace server

open util

/-! ### The request logging middleware -/

/-- The merged request fields hold the resolved address under "ip": the second
mapping has no such key. -/
theorem lookup_ip_requestFields (r r1 : Request) (statusCode : Int) (duration : String) :
    (flatten (requestFields r r1 statusCode duration)).lookup "ip"
      = some (.str (resolveIP r)) := by
  have hsecond : ∀ v : Value,
      AList.lookup "ip" (AList.singleton "referrer" v : FieldMap) = none := fun _ => rfl
  rw [lookup_flatten]
  simp [requestFields, FieldMap.ofList, FieldMap.assign, List.findSome?, AList.lookup_insert_ne,
    AList.lookup_insert, hsecond]

/-- C6: in every Info event `ReqLogger` emits for a request, the "ip" field is
the request's X-Forwarded-For header value when that value is not empty,
whatever the peer address, and the peer address `RemoteAddr` otherwise. -/
theorem ReqLogger_ip {W : Type} (g : Logger) (rt : Runtime) (wh : W → Int → W)
    (next : Handler) (duration : String) (w : W) (r : Request) (ev : LogEvent)
    (hev : Effect.record ev ∈ (ReqLogger g rt wh next duration w r).2.out) :
    ev.level = zerolog.InfoLevel ∧
    (Header.Get r.Header "X-Forwarded-For" ≠ "" →
      ev.fields.lookup "ip" = some (.str (Header.Get r.Header "X-Forwarded-For"))) ∧
    (Header.Get r.Header "X-Forwarded-For" = "" →
      ev.fields.lookup "ip" = some (.str r.RemoteAddr)) := by
  have hip := lookup_ip_requestFields r (next r).2
    ((newResponseWriter w).WriteHeaders wh (next r).1).statusCode duration
  have hrun : (ReqLogger g rt wh next duration w r).2 =
      g.logWithFields rt zerolog.InfoLevel "Request Information"
        (flatten (requestFields r (next r).2
          ((newResponseWriter w).WriteHeaders wh (next r).1).statusCode duration)) := rfl
  rw [hrun] at hev
  unfold Logger.logWithFields at hev
  have hfields : ev.level = zerolog.InfoLevel ∧
      ev.fields.lookup "ip" = some (.str (resolveIP r)) := by
    cases hcaller : getCaller rt g.cwd with
    | error text => simp [hcaller] at hev
    | ok caller =>
      cases hen : g.logger.WithLevel rt.GlobalLevel zerolog.InfoLevel with
      | false => simp [hcaller, hen] at hev
      | true =>
        simp only [hcaller, hen, if_true, List.mem_singleton, Effect.record.injEq] at hev
        subst hev
        exact ⟨rfl, hip⟩
  refine ⟨hfields.1, ?_, ?_⟩
  · intro hfwd
    rw [hfields.2]
    simp [resolveIP, hfwd]
  · intro hfwd
    rw [hfields.2]
    simp [resolveIP, hfwd]

/-- C6 at a concrete input: a request with `X-Forwarded-For: 203.0.113.5` from
the peer `10.0.0.7:51234` is logged with ip `203.0.113.5`. -/
theorem ReqLogger_ip_witness :
    Effect.record
        { level := zerolog.InfoLevel, caller := "route/file.go:42",
          fields := flatten (requestFields sampleRequest sampleRequest 200 "5ms"),
          time := "2024-01-02T03:04:05Z", message := "Request Information" }
      ∈ (ReqLogger sampleLogger sampleRuntime recordCode sampleHandler "5ms" [] sampleRequest).2.out
    ∧ (flatten (requestFields sampleRequest sampleRequest 200 "5ms")).lookup "ip"
      = some (.str "203.0.113.5") :=
  ⟨List.mem_singleton.mpr rfl,
   (ReqLogger_ip sampleLogger sampleRuntime recordCode sampleHandler "5ms" [] sampleRequest
      { level := zerolog.InfoLevel, caller := "route/file.go:42",
        fields := flatten (requestFields sampleRequest sampleRequest 200 "5ms"),
        time := "2024-01-02T03:04:05Z", message := "Request Information" }
      (List.mem_singleton.mpr rfl)).2.1 (by decide)⟩

end server

namespace util

/-! ### The console writer -/

/-- The `switch` of `Write` is the fixed color table. -/
theorem switchLevelColor_eq_table (level : String) :
    switchLevelColor level = Spec.colorTable level := by
  by_cases h1 : level = "TRACE"
  · subst h1; rfl
  by_cases h2 : level = "DEBUG"
  · subst h2; rfl
  by_cases h3 : level = "INFO"
  · subst h3; rfl
  by_cases h4 : level = "WARN"
  · subst h4; rfl
  by_cases h5 : level = "ERROR"
  · subst h5; rfl
  by_cases h6 : level = "FATAL"
  · subst h6; rfl
  by_cases h7 : level = "PANIC"
  · subst h7; rfl
  unfold switchLevelColor Spec.colorTable
  simp only [if_neg h1, if_neg h2, if_neg h3, if_neg h4, if_neg h5, if_neg h6, if_neg h7]

/-- The text `Write` builds, segment by segment. -/
theorem formatLine_eq (lib : Lib) (event : FieldMap) :
    formatLine lib event =
      Spec.lineHead lib event ++ Spec.fieldSegment lib (extraEntries event)
        ++ Spec.callerSegment event ++ "\n" := by
  have hhead :
      "[" ++ toString lib.Getpid ++ "] "
        ++ (match event.lookup "time" with
            | some (.str ts) =>
              (match lib.ParseRFC3339 ts with
               | some t => lib.FormatUTC t
               | none => "")
            | _ => "")
        ++ " "
        ++ (match event.lookup "level" with
            | some (.str l) => (lib.ToUpper l, switchLevelColor (lib.ToUpper l))
            | _ => ("INFO", White)).2
        ++ "["
        ++ (match event.lookup "level" with
            | some (.str l) => (lib.ToUpper l, switchLevelColor (lib.ToUpper l))
            | _ => ("INFO", White)).1
        ++ "]" ++ Reset ++ " "
        ++ (match event.lookup "message" with
            | some (.str msg) => msg
            | _ => "")
      = Spec.lineHead lib event := by
    unfold Spec.lineHead Spec.timeText Spec.levelColor Spec.levelName Spec.messageText
    congr 1
    · congr 4
      · congr 2
        · congr 2
          split
          · next ts _ => cases lib.ParseRFC3339 ts <;> rfl
          · rfl
        · split
          · next l _ => exact switchLevelColor_eq_table (lib.ToUpper l)
          · rfl
      · split <;> rfl
  have hseg :
      (if ((event.entries.filter (fun e => isExtraKey e.1)).map
            (fun e => e.1 ++ " = " ++ lib.SprintV e.2)).length > 0 then
        Spec.lineHead lib event ++ (" (" ++ ", ".intercalate
          ((event.entries.filter (fun e => isExtraKey e.1)).map
            (fun e => e.1 ++ " = " ++ lib.SprintV e.2)) ++ ")")
      else Spec.lineHead lib event)
      = Spec.lineHead lib event ++ Spec.fieldSegment lib (extraEntries event) := by
    unfold Spec.fieldSegment extraEntries
    cases hf : event.entries.filter (fun e => isExtraKey e.1) with
    | nil => simp
    | cons e es => simp [List.map_map, Function.comp_def]
  have hcall : ∀ body : String,
      (if (match event.lookup "caller" with
            | some (.str c) => c
            | _ => "") ≠ "" then
        body ++ (" " ++ (match event.lookup "caller" with
            | some (.str c) => c
            | _ => ""))
      else body)
      = body ++ Spec.callerSegment event := by
    intro body
    unfold Spec.callerSegment
    cases event.lookup "caller" with
    | none => simp
    | some v =>
      cases v with
      | str c =>
        by_cases hc : c = ""
        · simp [hc]
        · simp [hc]
      | _ => simp
  unfold formatLine
  simp only [hhead, hseg, hcall]

/-- The condition of the `range` loop, spelled out. -/
theorem isExtraKey_iff (k : String) :
    isExtraKey k = true ↔ (k ≠ "time" ∧ k ≠ "level" ∧ k ≠ "message" ∧ k ≠ "caller") := by
  simp [isExtraKey, and_assoc]

/-- The kept entries are exactly the bindings of the record under keys other
than time, level, message and caller. -/
theorem mem_extraEntries (event : FieldMap) (k : String) (v : Value) :
    (k, v) ∈ extraEntries event ↔
      (event.lookup k = some v ∧ k ≠ "time" ∧ k ≠ "level" ∧ k ≠ "message" ∧ k ≠ "caller") := by
  have hlk : event.lookup k = some v ↔ (⟨k, v⟩ : Sigma fun _ : String => Value) ∈ event.entries :=
    AList.mem_lookup_iff
  rw [hlk, ← isExtraKey_iff]
  unfold extraEntries
  constructor
  · intro h
    obtain ⟨e, he, heq⟩ := List.mem_map.mp h
    obtain ⟨a, b⟩ := e
    simp only [Prod.mk.injEq] at heq
    obtain ⟨rfl, rfl⟩ := heq
    have hf := List.mem_filter.mp he
    exact ⟨hf.1, by simpa using hf.2⟩
  · rintro ⟨hmem, hkey⟩
    exact List.mem_map.mpr ⟨⟨k, v⟩, List.mem_filter.mpr ⟨hmem, by simpa using hkey⟩, rfl⟩

/-- No key is kept twice. -/
theorem nodup_extraEntries (event : FieldMap) : ((extraEntries event).map Prod.fst).Nodup := by
  have hkeys : (extraEntries event).map Prod.fst
      = (event.entries.filter (fun e => isExtraKey e.1)).map Sigma.fst := by
    unfold extraEntries
    rw [List.map_map]
    rfl
  rw [hkeys]
  exact List.Nodup.sublist (List.Sublist.map _ (List.filter_sublist _)) event.nodupKeys

/-- Nothing is kept exactly when the record has no key besides the four. -/
theorem extraEntries_eq_nil_iff (event : FieldMap) :
    extraEntries event = [] ↔
      ∀ k, k ∈ event → k = "time" ∨ k = "level" ∨ k = "message" ∨ k = "caller" := by
  constructor
  · intro hnil k hk
    obtain ⟨v, hv⟩ := Option.isSome_iff_exists.mp (AList.lookup_isSome.mpr hk)
    by_contra hnot
    have hmem : (k, v) ∈ extraEntries event :=
      (mem_extraEntries event k v).mpr ⟨hv, by tauto, by tauto, by tauto, by tauto⟩
    rw [hnil] at hmem
    exact List.not_mem_nil _ hmem
  · intro hall
    apply List.eq_nil_iff_forall_not_mem.mpr
    rintro ⟨k, v⟩ hmem
    have h := (mem_extraEntries event k v).mp hmem
    have hk : k ∈ event := AList.lookup_isSome.mp (by simp [h.1])
    rcases hall k hk with h1 | h1 | h1 | h1
    · exact h.2.1 h1
    · exact h.2.2.1 h1
    · exact h.2.2.2.1 h1
    · exact h.2.2.2.2 h1

/-- The method `Write` on a payload that decodes. -/
theorem Write_of_parsed {σ : Type} (lib : Lib) (w : CustomConsoleWriter σ) (s : σ) (p : Bytes)
    (event : FieldMap) (hparse : lib.Unmarshal p = .ok event) :
    w.Write lib s p = w.Out s (toBytes (formatLine lib event)) := by
  unfold CustomConsoleWriter.Write
  rw [hparse]

/-- C3, as stated, fails: for the record with level "warn", message "disk low"
and a time, `Write` puts the level name in square brackets between the color
code and the reset code, so the line is not the one the claim describes. -/
theorem Write_level_in_brackets :
    sampleLib.Unmarshal plainPayload = .ok plainRecord ∧
    (recordingWriter.Write sampleLib [] plainPayload).1
      = [toBytes "[4242] 2024-01-02 03:04:05 \x1b[33m[WARN]\x1b[0m disk low\n"] ∧
    toBytes "[4242] 2024-01-02 03:04:05 \x1b[33m[WARN]\x1b[0m disk low\n"
      ≠ toBytes (Spec.claimedLine "4242" "2024-01-02 03:04:05" Yellow "WARN" "disk low") :=
  ⟨rfl, rfl, by decide⟩

/-- C3, amended: for every payload that decodes to a record with no keys other
than time, level, message and caller, and with an empty or missing caller,
`Write` writes exactly the line `[<pid>] <time> <color>[<LEVEL>]<reset> <message>`
and a newline: the level name stands in square brackets; it is the uppercased
level, or "INFO" without a level; the color is the table color of that name when
the record has a level and `White` when it has none; the time is the UTC
rendering of the record's time, empty if missing or unparseable. -/
theorem Write_plain_record {σ : Type} (lib : Lib) (w : CustomConsoleWriter σ) (s : σ)
    (p : Bytes) (event : FieldMap) (hparse : lib.Unmarshal p = .ok event)
    (hkeys : ∀ k, k ∈ event → k = "time" ∨ k = "level" ∨ k = "message" ∨ k = "caller")
    (hcaller : event.lookup "caller" = none ∨ event.lookup "caller" = some (.str "")) :
    w.Write lib s p =
      w.Out s (toBytes ("[" ++ toString lib.Getpid ++ "] " ++ Spec.timeText lib event ++ " "
        ++ Spec.levelColor lib event ++ "[" ++ Spec.levelName lib event ++ "]" ++ Reset ++ " "
        ++ Spec.messageText event ++ "\n")) := by
  have hseg : Spec.fieldSegment lib (extraEntries event) = "" := by
    rw [(extraEntries_eq_nil_iff event).mpr hkeys]
    rfl
  have hcall : Spec.callerSegment event = "" := by
    unfold Spec.callerSegment
    rcases hcaller with h | h <;> rw [h]
    rfl
  rw [Write_of_parsed lib w s p event hparse, formatLine_eq, hseg, hcall]
  simp [Spec.lineHead]

/-- C3, amended, at a concrete input: the record with level "warn", message
"disk low" and a time. -/
theorem Write_plain_record_witness :
    recordingWriter.Write sampleLib [] plainPayload =
      recordingWriter.Out [] (toBytes ("[" ++ toString sampleLib.Getpid ++ "] "
        ++ Spec.timeText sampleLib plainRecord ++ " "
        ++ Spec.levelColor sampleLib plainRecord ++ "[" ++ Spec.levelName sampleLib plainRecord
        ++ "]" ++ Reset ++ " " ++ Spec.messageText plainRecord ++ "\n")) :=
  Write_plain_record sampleLib recordingWriter [] plainPayload plainRecord rfl
    (by
      intro k hk
      have hk2 : k ∈ plainRecord.keys := hk
      have hkeys : plainRecord.keys = ["message", "time", "level"] := rfl
      rw [hkeys] at hk2
      simp at hk2
      tauto)
    (Or.inl rfl)

/-- C4, as stated, fails: the payload `null` is not a JSON object, yet
`json.Unmarshal` accepts it (the map is set to nil and no error is returned), so
`Write` takes the formatting branch and writes the line of a record without
keys instead of the four input bytes. -/
theorem Write_null_is_formatted :
    nullPayload = [110, 117, 108, 108] ∧
    sampleLib.Unmarshal nullPayload = .ok (∅ : FieldMap) ∧
    (recordingWriter.Write sampleLib [] nullPayload).1
      = [toBytes "[4242]  \x1b[97m[INFO]\x1b[0m \n"] ∧
    (recordingWriter.Write sampleLib [] nullPayload).1 ≠ [nullPayload] :=
  ⟨by decide, rfl, rfl, by decide⟩

/-- C4, amended: for every payload on which `json.Unmarshal` returns an error,
`Write` is one write of exactly the input bytes to the sink, and its result is
the sink's result. -/
theorem Write_passthrough {σ : Type} (lib : Lib) (w : CustomConsoleWriter σ) (s : σ)
    (p : Bytes) (err : String) (hfail : lib.Unmarshal p = .error err) :
    w.Write lib s p = w.Out s p := by
  unfold CustomConsoleWriter.Write
  rw [hfail]

/-- C4, amended, at a concrete input: a line that is not JSON reaches the sink
as it is. -/
theorem Write_passthrough_witness :
    recordingWriter.Write sampleLib [] garbagePayload
      = ([garbagePayload], ((garbagePayload.length : Int), none)) :=
  Write_passthrough sampleLib recordingWriter [] garbagePayload
    "invalid character 'l' looking for beginning of value" rfl

/-- C9: for every payload that decodes to a record, the line `Write` writes is
the head up to the message, then the field segment, then the caller segment and
a newline, where the field segment is built from a list `extra` that holds each
binding of the record under a key other than time, level, message and caller
exactly once (in some order) and nothing else: the segment is empty when `extra`
is empty, that is when no such key exists, and otherwise is ` (`, the entries
`key = value` joined by ", ", and `)`. -/
theorem Write_field_segment {σ : Type} (lib : Lib) (w : CustomConsoleWriter σ) (s : σ)
    (p : Bytes) (event : FieldMap) (hparse : lib.Unmarshal p = .ok event) :
    ∃ extra : List (String × Value),
      (extra.map Prod.fst).Nodup ∧
      (∀ k v, (k, v) ∈ extra ↔
        (event.lookup k = some v ∧ k ≠ "time" ∧ k ≠ "level" ∧ k ≠ "message" ∧ k ≠ "caller")) ∧
      (extra = [] ↔
        ∀ k, k ∈ event → k = "time" ∨ k = "level" ∨ k = "message" ∨ k = "caller") ∧
      w.Write lib s p =
        w.Out s (toBytes (Spec.lineHead lib event
          ++ (if extra.isEmpty then ""
              else " (" ++ ", ".intercalate
                (extra.map (fun kv => kv.1 ++ " = " ++ lib.SprintV kv.2)) ++ ")")
          ++ Spec.callerSegment event ++ "\n")) := by
  refine ⟨extraEntries event, nodup_extraEntries event, mem_extraEntries event,
    extraEntries_eq_nil_iff event, ?_⟩
  rw [Write_of_parsed lib w s p event hparse, formatLine_eq]
  rfl

/-- C9 at a concrete input: a record with a caller and the extra keys "method"
and "url". -/
theorem Write_field_segment_witness :
    (recordingWriter.Write sampleLib [] richPayload).1 =
      [toBytes ("[4242]  \x1b[32m[INFO]\x1b[0m Request Information"
        ++ " (url = /file/readme.txt, method = GET)" ++ " main.go:69" ++ "\n")] ∧
    ∃ extra : List (String × Value),
      (extra.map Prod.fst).Nodup ∧
      (∀ k v, (k, v) ∈ extra ↔
        (richRecord.lookup k = some v ∧ k ≠ "time" ∧ k ≠ "level" ∧ k ≠ "message"
          ∧ k ≠ "caller")) ∧
      (extra = [] ↔
        ∀ k, k ∈ richRecord → k = "time" ∨ k = "level" ∨ k = "message" ∨ k = "caller") ∧
      recordingWriter.Write sampleLib [] richPayload =
        recordingWriter.Out [] (toBytes (Spec.lineHead sampleLib richRecord
          ++ (if extra.isEmpty then ""
              else " (" ++ ", ".intercalate
                (extra.map (fun kv => kv.1 ++ " = " ++ sampleLib.SprintV kv.2)) ++ ")")
          ++ Spec.callerSegment richRecord ++ "\n")) :=
  ⟨rfl, Write_field_segment sampleLib recordingWriter [] richPayload richRecord rfl⟩

end util
